import Mathlib

/-!
Shallow embedding of the `oil_analysis` repository (a Streamlit human-in-the-loop
evaluation tool) for specification verification.

The embedding covers:
* `src/app/utils/schemas.py` — the `Evaluation` / `EvaluationCreate` dataclasses with
  their construction-time Grade validation, and the SQLite `evaluations` table shape;
* `src/app/utils/db.py` — the SQLite-backed evaluation store operations
  (`init_database`, `create_evaluation`, `get_evaluations_by_alert`,
  `get_evaluations_by_comment`, `get_database_stats`);
* `src/app/utils/io.py` — the pandas dataframe pipelines deriving per-alert context
  (`get_alert_details`, `get_oil_data_for_alert`, `get_telemetry_data_for_alert`,
  `get_oil_summary_table`, `get_telemetry_breaches_table`, `get_available_alerts`,
  `get_alerts_with_filters`);
* `src/app/utils/s3_sync.py` — the per-file freshness decision of `download_data_files`.

Modelling conventions: dataframes are lists of records in row order; nullable columns
are `Option`; numeric values are `Int` (the claims under study involve only order and
arithmetic comparisons, no float-specific behaviour); timestamps are `Int` measured in
hours (so the 48-hour telemetry window is `±48`).  pandas `sort_values` is modelled by
stable `List.insertionSort`; pandas `groupby(...).last()` — which takes the *last
non-null entry of each column* within a group — is modelled by `lastNonNull` applied
column-wise; pandas `Series.unique()` (first-occurrence order) is `dedupFirst`.
SQLite's `INTEGER PRIMARY KEY AUTOINCREMENT` (see `EVALUATIONS_TABLE_SQL`) is modelled
by a store-held counter `nextId` that only grows, and Python exceptions by `Except`.
-/

/-- First-occurrence deduplication, auxiliary: drop elements already in `seen`.
Models the order semantics of pandas `Series.unique()`. -/
def dedupFirstAux [DecidableEq α] (seen : List α) : List α → List α
  | [] => []
  | x :: xs => if x ∈ seen then dedupFirstAux seen xs else x :: dedupFirstAux (x :: seen) xs

/-- First-occurrence deduplication: keeps the first occurrence of each value, in order.
Models pandas `Series.unique()`. -/
def dedupFirst [DecidableEq α] (l : List α) : List α := dedupFirstAux [] l

theorem mem_dedupFirstAux [DecidableEq α] (a : α) (l : List α) :
    ∀ seen : List α, a ∈ dedupFirstAux seen l ↔ a ∈ l ∧ a ∉ seen := by
  induction l with
  | nil => intro seen; simp [dedupFirstAux]
  | cons x xs ih =>
    intro seen
    simp only [dedupFirstAux]
    by_cases hx : x ∈ seen
    · rw [if_pos hx, ih seen]
      constructor
      · rintro ⟨h1, h2⟩; exact ⟨List.mem_cons_of_mem _ h1, h2⟩
      · rintro ⟨h1, h2⟩
        rcases List.mem_cons.mp h1 with rfl | h
        · exact absurd hx h2
        · exact ⟨h, h2⟩
    · rw [if_neg hx]
      rw [List.mem_cons, ih (x :: seen)]
      constructor
      · rintro (rfl | ⟨h1, h2⟩)
        · exact ⟨List.mem_cons_self _ _, hx⟩
        · exact ⟨List.mem_cons_of_mem _ h1, fun hc => h2 (List.mem_cons_of_mem _ hc)⟩
      · rintro ⟨h1, h2⟩
        by_cases hax : a = x
        · exact Or.inl hax
        · right
          rcases List.mem_cons.mp h1 with rfl | h
          · exact absurd rfl hax
          · refine ⟨h, fun hc => ?_⟩
            rcases List.mem_cons.mp hc with rfl | hc'
            · exact hax rfl
            · exact h2 hc'

theorem mem_dedupFirst [DecidableEq α] (a : α) (l : List α) :
    a ∈ dedupFirst l ↔ a ∈ l := by
  rw [dedupFirst, mem_dedupFirstAux]
  simp

theorem nodup_dedupFirstAux [DecidableEq α] (l : List α) :
    ∀ seen : List α, (dedupFirstAux seen l).Nodup := by
  induction l with
  | nil => intro _; simp [dedupFirstAux]
  | cons x xs ih =>
    intro seen
    simp only [dedupFirstAux]
    by_cases hx : x ∈ seen
    · rw [if_pos hx]; exact ih seen
    · rw [if_neg hx]
      rw [List.nodup_cons]
      refine ⟨fun hc => ?_, ih (x :: seen)⟩
      exact ((mem_dedupFirstAux x xs (x :: seen)).mp hc).2 (List.mem_cons_self x seen)

theorem nodup_dedupFirst [DecidableEq α] (l : List α) : (dedupFirst l).Nodup :=
  nodup_dedupFirstAux l []

/-- Last non-`none` entry of a list of optional values (searching from the right).
Models the per-column behaviour of pandas `GroupBy.last()`, which returns the last
non-null entry of each column within the group. -/
def lastNonNull : List (Option α) → Option α
  | [] => none
  | x :: xs =>
    match lastNonNull xs with
    | some v => some v
    | none => x

theorem lastNonNull_mem {xs : List (Option α)} {v : α}
    (h : lastNonNull xs = some v) : some v ∈ xs := by
  induction xs with
  | nil => simp [lastNonNull] at h
  | cons x xs ih =>
    rw [lastNonNull] at h
    cases hx : lastNonNull xs with
    | some w =>
      rw [hx] at h
      exact List.mem_cons_of_mem _ (ih (hx.trans h))
    | none =>
      rw [hx] at h
      exact h ▸ List.mem_cons_self _ _

/-- Maximum of a list of integers, `none` on the empty list.
Models pandas `Series.max()` over a numeric column. -/
def listMax? : List Int → Option Int
  | [] => none
  | x :: xs =>
    match listMax? xs with
    | none => some x
    | some m => some (max x m)

theorem listMax?_isSome_iff (xs : List Int) : (listMax? xs).isSome = true ↔ xs ≠ [] := by
  cases xs with
  | nil => simp [listMax?]
  | cons x xs =>
    rw [listMax?]
    cases listMax? xs <;> simp

theorem listMax?_mem {xs : List Int} {m : Int} (h : listMax? xs = some m) : m ∈ xs := by
  induction xs generalizing m with
  | nil => simp [listMax?] at h
  | cons x xs ih =>
    rw [listMax?] at h
    cases hx : listMax? xs with
    | none =>
      rw [hx] at h
      cases h
      exact List.mem_cons_self _ _
    | some w =>
      rw [hx] at h
      cases h
      rcases max_choice x w with hm | hm
      · rw [hm]; exact List.mem_cons_self _ _
      · rw [hm]; exact List.mem_cons_of_mem _ (ih hx)

theorem le_listMax? {xs : List Int} {m : Int} (h : listMax? xs = some m) :
    ∀ y ∈ xs, y ≤ m := by
  induction xs generalizing m with
  | nil => simp
  | cons x xs ih =>
    rw [listMax?] at h
    intro y hy
    cases hx : listMax? xs with
    | none =>
      rw [hx] at h
      cases h
      rcases List.mem_cons.mp hy with rfl | hy'
      · exact le_refl _
      · cases xs with
        | nil => simp at hy'
        | cons z zs => rw [listMax?] at hx; cases hz : listMax? zs <;> rw [hz] at hx <;> cases hx
    | some w =>
      rw [hx] at h
      cases h
      rcases List.mem_cons.mp hy with rfl | hy'
      · exact le_max_left _ _
      · exact le_trans (ih hx y hy') (le_max_right _ _)

/-- Lexicographic "boolean flag descending, then `g`" ordering: rows whose flag is
`true` sort strictly before rows whose flag is `false`; equal flags fall back to `g`. -/
def flagLex (f : α → Bool) (g : α → α → Prop) (a b : α) : Prop :=
  (f a = true ∧ f b = false) ∨ (f a = f b ∧ g a b)

theorem flagLex_total (f : α → Bool) (g : α → α → Prop)
    (hg : ∀ a b, g a b ∨ g b a) (a b : α) : flagLex f g a b ∨ flagLex f g b a := by
  unfold flagLex
  cases ha : f a <;> cases hb : f b
  · rcases hg a b with h | h
    · exact Or.inl (Or.inr ⟨rfl, h⟩)
    · exact Or.inr (Or.inr ⟨rfl, h⟩)
  · exact Or.inr (Or.inl ⟨rfl, rfl⟩)
  · exact Or.inl (Or.inl ⟨rfl, rfl⟩)
  · rcases hg a b with h | h
    · exact Or.inl (Or.inr ⟨rfl, h⟩)
    · exact Or.inr (Or.inr ⟨rfl, h⟩)

theorem flagLex_trans (f : α → Bool) (g : α → α → Prop)
    (hg : ∀ a b c, g a b → g b c → g a c) (a b c : α)
    (hab : flagLex f g a b) (hbc : flagLex f g b c) : flagLex f g a c := by
  rcases hab with ⟨ha, hb⟩ | ⟨hab, gab⟩
  · rcases hbc with ⟨hb', _⟩ | ⟨hbc, _⟩
    · rw [hb] at hb'; cases hb'
    · exact Or.inl ⟨ha, hbc ▸ hb⟩
  · rcases hbc with ⟨hb', hc⟩ | ⟨hbc, gbc⟩
    · exact Or.inl ⟨hab.trans hb', hc⟩
    · exact Or.inr ⟨hab.trans hbc, hg a b c gab gbc⟩

instance flagLexDecidable (f : α → Bool) (g : α → α → Prop) [DecidableRel g] :
    DecidableRel (flagLex f g) := fun a b => by
  unfold flagLex
  infer_instance

theorem mem_of_getLast?_eq {l : List α} {x : α} (h : l.getLast? = some x) : x ∈ l := by
  rcases List.mem_getLast?_eq_getLast (Option.mem_def.mpr h) with ⟨hne, hx⟩
  rw [hx]
  exact List.getLast_mem hne

/-- For a reflexive sorted order, the last element of a sorted list is an upper bound. -/
theorem sorted_getLast?_max {r : α → α → Prop} (hrefl : ∀ a, r a a) :
    ∀ l : List α, l.Sorted r → ∀ x, l.getLast? = some x → ∀ y ∈ l, r y x := by
  intro l
  induction l with
  | nil => intro _ x hx; simp at hx
  | cons a l ih =>
    intro hs x hx y hy
    cases l with
    | nil =>
      simp at hx hy
      subst hx
      subst hy
      exact hrefl _
    | cons b l' =>
      rw [List.getLast?_cons_cons] at hx
      rw [List.sorted_cons] at hs
      rcases List.mem_cons.mp hy with rfl | hy'
      · exact hs.1 x (mem_of_getLast?_eq hx)
      · exact ih hs.2 x hx y hy'

/-! ## Data model (`src/app/utils/schemas.py`, measurement parquet schemas) -/

/-- One row of `alerts.parquet` (schema `AlertData` in `schemas.py`). -/
structure AlertRow where
  AlertId : String
  UnitId : String
  Component : String
  TimeStart : Option Int
  OilAlertId : Option String
  TelAlertId : Option String
  Label : Option String
deriving Repr, DecidableEq

/-- One row of `oil_measurements.parquet` (schema `OilMeasurement` in `schemas.py`). -/
structure OilRow where
  OilAlertId : String
  SampleDate : Int
  ElementName : String
  Value : Int
  IsLimitReached : Bool
  LimitValue : Option Int
  BreachLevel : Option String
deriving Repr, DecidableEq

/-- One row of `telemetry_measurements.parquet` (schema `TelemetryMeasurement`). -/
structure TelRow where
  TelAlertId : String
  Timestamp : Int
  VariableName : String
  Value : Int
  IsLimitReached : Bool
  UpperLimitValue : Option Int
  LowerLimitValue : Option Int
deriving Repr, DecidableEq

/-- One row of `ai_comments.parquet` (schema `AIComment` in `schemas.py`). -/
structure CommentRow where
  AICommentId : String
  AlertId : String
  CommentText : String
  CommentType : String
deriving Repr, DecidableEq

/-- The four in-memory measurement dataframes loaded by `io.py`. -/
structure MeasurementStore where
  alerts : List AlertRow
  oil : List OilRow
  telemetry : List TelRow
  comments : List CommentRow
deriving Repr, DecidableEq

/-! ## Context derivation (`src/app/utils/io.py`) -/

/-- `io.get_alert_details`: first alert row whose `AlertId` matches (`.iloc[0]` of the
filtered frame), `none` when absent or the frame is empty. -/
def get_alert_details (s : MeasurementStore) (alertId : String) : Option AlertRow :=
  s.alerts.find? (fun a => a.AlertId = alertId)

/-- `io.get_oil_data_for_alert`: oil rows whose `OilAlertId` matches the alert's oil
link; empty when the alert is unknown or its `OilAlertId` is missing/falsy. -/
def get_oil_data_for_alert (s : MeasurementStore) (alertId : String) : List OilRow :=
  match get_alert_details s alertId with
  | none => []
  | some a =>
    match a.OilAlertId with
    | none => []
    | some oid =>
      if oid = "" then [] else s.oil.filter (fun r => r.OilAlertId = oid)

/-- 48 hours, in the embedding's hour-granularity timestamps
(`timedelta(hours=48)` in `io.get_telemetry_data_for_alert`). -/
def hours48 : Int := 48

/-- The tail of `io.get_telemetry_data_for_alert` once the alert's `TelAlertId` link
is known truthy: filter by `TelAlertId`, then — when `TimeStart` is present and the
match is non-empty — restrict to the closed window `[TimeStart - 48h, TimeStart + 48h]`. -/
def telWindow (tel : List TelRow) (tid : String) (timeStart : Option Int) : List TelRow :=
  let filtered := tel.filter (fun r => r.TelAlertId = tid)
  match timeStart with
  | none => filtered
  | some t0 =>
    if filtered = [] then filtered
    else
      filtered.filter
        (fun r => t0 - hours48 ≤ r.Timestamp ∧ r.Timestamp ≤ t0 + hours48)

/-- `io.get_telemetry_data_for_alert`: telemetry rows whose `TelAlertId` matches the
alert's telemetry link, restricted — when the alert has a `TimeStart` and the match is
non-empty — to the closed window `[TimeStart - 48h, TimeStart + 48h]`. -/
def get_telemetry_data_for_alert (s : MeasurementStore) (alertId : String) : List TelRow :=
  match get_alert_details s alertId with
  | none => []
  | some a =>
    match a.TelAlertId with
    | none => []
    | some tid =>
      if tid = "" then [] else telWindow s.telemetry tid a.TimeStart

/-- Row shape returned by `io.get_oil_summary_table` (columns `summary_columns`). -/
structure OilSummaryRow where
  ElementName : String
  Value : Int
  LimitValue : Option Int
  BreachLevel : Option String
deriving Repr, DecidableEq

/-- `get_oil_summary_table`'s intermediate frame before the helper `IsLimitReached`
column is dropped (`summary_df` just before `drop('IsLimitReached', axis=1)`). -/
structure OilSummaryRowFlagged where
  ElementName : String
  Value : Int
  LimitValue : Option Int
  BreachLevel : Option String
  IsLimitReached : Bool
deriving Repr, DecidableEq

/-- Sort key of `oil_df.sort_values('SampleDate')`. -/
def sampleDateLE (a b : OilRow) : Prop := a.SampleDate ≤ b.SampleDate

instance : IsTotal OilRow sampleDateLE := ⟨fun a b => le_total a.SampleDate b.SampleDate⟩

instance : IsTrans OilRow sampleDateLE := ⟨fun _ _ _ hab hbc => le_trans hab hbc⟩

instance : DecidableRel sampleDateLE := fun a b =>
  inferInstanceAs (Decidable (a.SampleDate ≤ b.SampleDate))

/-- Sort key of `summary_df.sort_values(['IsLimitReached', 'ElementName'],
ascending=[False, True])`: breached rows first, then `ElementName` ascending. -/
def oilFlagLE : OilSummaryRowFlagged → OilSummaryRowFlagged → Prop :=
  flagLex (fun r => r.IsLimitReached) (fun a b => a.ElementName ≤ b.ElementName)

instance : IsTotal OilSummaryRowFlagged oilFlagLE :=
  ⟨flagLex_total _ _ (fun a b => le_total a.ElementName b.ElementName)⟩

instance : IsTrans OilSummaryRowFlagged oilFlagLE :=
  ⟨flagLex_trans _ _ (fun _ _ _ hab hbc => le_trans hab hbc)⟩

instance : DecidableRel oilFlagLE := fun a b =>
  flagLexDecidable _ _ a b

/-- The oil rows of the alert, stably sorted by `SampleDate` ascending
(`oil_df.sort_values('SampleDate')` in `get_oil_summary_table`). -/
def oilSorted (s : MeasurementStore) (alertId : String) : List OilRow :=
  List.insertionSort sampleDateLE (get_oil_data_for_alert s alertId)

/-- The group keys of `groupby('ElementName')` (pandas sorts group keys ascending). -/
def oilKeys (s : MeasurementStore) (alertId : String) : List String :=
  List.insertionSort (· ≤ ·) (dedupFirst ((oilSorted s alertId).map (fun r => r.ElementName)))

/-- The `SampleDate`-sorted rows of one `ElementName` group. -/
def oilGroup (s : MeasurementStore) (alertId : String) (e : String) : List OilRow :=
  (oilSorted s alertId).filter (fun r => r.ElementName = e)

/-- One aggregated row of `groupby('ElementName').last()`: pandas `GroupBy.last`
takes the last **non-null** entry of each column within the group (so nullable
columns such as `LimitValue` can come from an earlier row than `Value` does). -/
def aggOilRow (s : MeasurementStore) (alertId : String) (e : String) :
    Option OilSummaryRowFlagged :=
  match (oilGroup s alertId e).getLast? with
  | none => none
  | some lastRow =>
    some { ElementName := e
           Value := lastRow.Value
           LimitValue := lastNonNull ((oilGroup s alertId e).map (fun r => r.LimitValue))
           BreachLevel := lastNonNull ((oilGroup s alertId e).map (fun r => r.BreachLevel))
           IsLimitReached := lastRow.IsLimitReached }

/-- `io.get_oil_summary_table` up to (and including) the final two-key sort, with the
helper `IsLimitReached` column still present. -/
def oilSummaryFlagged (s : MeasurementStore) (alertId : String) :
    List OilSummaryRowFlagged :=
  List.insertionSort oilFlagLE ((oilKeys s alertId).filterMap (aggOilRow s alertId))

/-- `io.get_oil_summary_table`: latest-per-element oil snapshot, breached elements
first, helper sort column dropped. -/
def get_oil_summary_table (s : MeasurementStore) (alertId : String) : List OilSummaryRow :=
  (oilSummaryFlagged s alertId).map
    (fun r => { ElementName := r.ElementName
                Value := r.Value
                LimitValue := r.LimitValue
                BreachLevel := r.BreachLevel })

/-- Row shape of `io.get_telemetry_breaches_table`. -/
structure BreachRow where
  VariableName : String
  MaxExcess : Int
  AnyLimitReached : Bool
deriving Repr, DecidableEq

/-- Sort key of `breach_df.sort_values(['AnyLimitReached', 'MaxExcess'],
ascending=[False, False])`. -/
def telFlagLE : BreachRow → BreachRow → Prop :=
  flagLex (fun r => r.AnyLimitReached) (fun a b => b.MaxExcess ≤ a.MaxExcess)

instance : IsTotal BreachRow telFlagLE :=
  ⟨flagLex_total _ _ (fun a b => (le_total b.MaxExcess a.MaxExcess).symm.imp id id |>.symm)⟩

instance : IsTrans BreachRow telFlagLE :=
  ⟨flagLex_trans _ _ (fun _ _ _ hab hbc => le_trans hbc hab)⟩

instance : DecidableRel telFlagLE := fun a b =>
  flagLexDecidable _ _ a b

/-- The telemetry-window rows of one `VariableName` group
(`tel_df[tel_df['VariableName'] == var_name]`). -/
def telGroup (s : MeasurementStore) (alertId : String) (v : String) : List TelRow :=
  (get_telemetry_data_for_alert s alertId).filter (fun r => r.VariableName = v)

/-- One entry of `breach_stats` in `get_telemetry_breaches_table`: max excess over the
rows with a non-null `UpperLimitValue` (clamped at 0, 0 when there are none), and the
OR of `IsLimitReached` over the group. -/
def breachStat (s : MeasurementStore) (alertId : String) (v : String) : BreachRow :=
  let g := telGroup s alertId v
  let excess := g.filterMap (fun r => r.UpperLimitValue.map (fun u => r.Value - u))
  let maxExcess : Int :=
    match listMax? excess with
    | none => 0
    | some m => if 0 < m then m else 0
  { VariableName := v
    MaxExcess := maxExcess
    AnyLimitReached := g.any (fun r => r.IsLimitReached) }

/-- `io.get_telemetry_breaches_table`: per-variable breach ranking over the telemetry
window — grouped by `VariableName` (first-occurrence order of `unique()`), sorted by
`AnyLimitReached` desc then `MaxExcess` desc, restricted to `AnyLimitReached` rows. -/
def get_telemetry_breaches_table (s : MeasurementStore) (alertId : String) :
    List BreachRow :=
  let tel := get_telemetry_data_for_alert s alertId
  if tel = [] then []
  else
    let vars := dedupFirst (tel.map (fun r => r.VariableName))
    let stats := vars.map (breachStat s alertId)
    (List.insertionSort telFlagLE stats).filter (fun r => r.AnyLimitReached)

/-- The alerts restricted to those having at least one AI comment
(`alerts_df[alerts_df['AlertId'].isin(comments_df['AlertId'].unique())]`). -/
def alertsWithComments (s : MeasurementStore) : List AlertRow :=
  s.alerts.filter (fun a => s.comments.any (fun c => c.AlertId = a.AlertId))

/-- `sorted(frame['AlertId'].unique().tolist())`: distinct alert ids, ascending. -/
def sortedUniqueAlertIds (l : List AlertRow) : List String :=
  List.insertionSort (· ≤ ·) (dedupFirst (l.map (fun a => a.AlertId)))

/-- `io.get_available_alerts`: all alert ids that have AI comments, sorted ascending. -/
def get_available_alerts (s : MeasurementStore) : List String :=
  if s.alerts = [] ∨ s.comments = [] then []
  else if alertsWithComments s = [] then []
  else sortedUniqueAlertIds (alertsWithComments s)

/-- One optional equality filter of `get_alerts_with_filters`: applied only when the
value is present, non-empty (Python truthiness) and not the `'All'` sentinel. -/
def applyOptFilter (get : AlertRow → String → Bool) (filt : Option String)
    (l : List AlertRow) : List AlertRow :=
  match filt with
  | none => l
  | some v => if v = "" ∨ v = "All" then l else l.filter (fun a => get a v)

/-- The three chained filter steps of `get_alerts_with_filters` over the
has-comments alerts: `Component`, then `UnitId`, then `Label`. -/
def filteredAlerts (s : MeasurementStore)
    (componentFilter unitFilter labelFilter : Option String) : List AlertRow :=
  applyOptFilter (fun a v => a.Label = some v) labelFilter
    (applyOptFilter (fun a v => a.UnitId = v) unitFilter
      (applyOptFilter (fun a v => a.Component = v) componentFilter (alertsWithComments s)))

/-- `io.get_alerts_with_filters`: as `get_available_alerts`, with optional
`Component` / `UnitId` / `Label` equality filters; a filter value of `None`, the empty
string (falsy in Python) or `'All'` is a no-op. -/
def get_alerts_with_filters (s : MeasurementStore)
    (componentFilter unitFilter labelFilter : Option String) : List String :=
  if s.alerts = [] ∨ s.comments = [] then []
  else if alertsWithComments s = [] then []
  else if filteredAlerts s componentFilter unitFilter labelFilter = [] then []
  else sortedUniqueAlertIds (filteredAlerts s componentFilter unitFilter labelFilter)

/-! ## Evaluation store (`src/app/utils/schemas.py`, `src/app/utils/db.py`) -/

/-- The field data handed to the `EvaluationCreate` dataclass constructor. -/
structure EvaluationCreateData where
  AICommentId : String
  AlertId : String
  Grade : Int
  UserId : Option String
  Notes : Option String
deriving Repr, DecidableEq

/-- `schemas.EvaluationCreate.__post_init__`: constructing the dataclass raises
`ValueError` unless `1 <= Grade <= 7`; `.ok` is a successfully constructed value. -/
def evaluationCreateInit (d : EvaluationCreateData) : Except String EvaluationCreateData :=
  if 1 ≤ d.Grade ∧ d.Grade ≤ 7 then .ok d else .error "Grade must be between 1-7"

/-- One persisted row of the SQLite `evaluations` table (`EVALUATIONS_TABLE_SQL`). -/
structure EvalRow where
  EvaluationId : Nat
  AICommentId : String
  AlertId : String
  UserId : Option String
  Grade : Int
  Notes : Option String
  CreatedAt : Int
deriving Repr, DecidableEq

/-- The `evaluations` table plus SQLite's AUTOINCREMENT state: `nextId` is the rowid
that `EvaluationId INTEGER PRIMARY KEY AUTOINCREMENT` will assign to the next INSERT.
AUTOINCREMENT guarantees the assigned rowids are strictly increasing and never reused
within one database lifetime, which the counter models. -/
structure EvalDB where
  rows : List EvalRow
  nextId : Nat
deriving Repr, DecidableEq

/-- `db.create_evaluation` on an already-constructed `EvaluationCreate`: converts it
to a full `Evaluation` (`CreatedAt := now`), INSERTs the six caller-visible columns
(never an `EvaluationId`), and returns the record carrying the store-assigned
`cursor.lastrowid`. -/
def create_evaluation (db : EvalDB) (d : EvaluationCreateData) (now : Int) :
    EvalRow × EvalDB :=
  let row : EvalRow :=
    { EvaluationId := db.nextId
      AICommentId := d.AICommentId
      AlertId := d.AlertId
      UserId := d.UserId
      Grade := d.Grade
      Notes := d.Notes
      CreatedAt := now }
  (row, { rows := db.rows ++ [row], nextId := db.nextId + 1 })

/-- The full create-evaluation request path: the `EvaluationCreate` dataclass is
constructed (Grade validation in `__post_init__`) before `db.create_evaluation` is
reached, so a `ValueError` leaves the store untouched. -/
def create_evaluation_request (db : EvalDB) (d : EvaluationCreateData) (now : Int) :
    Except String EvalRow × EvalDB :=
  match evaluationCreateInit d with
  | .error e => (.error e, db)
  | .ok d2 => ((create_evaluation db d2 now).1, (create_evaluation db d2 now).2)
    |>.map Except.ok id

/-- A sequence of successful `create_evaluation` calls against one store lifetime;
returns the final store and the assigned `EvaluationId`s in creation order. -/
def runCreates (db : EvalDB) : List (EvaluationCreateData × Int) → EvalDB × List Nat
  | [] => (db, [])
  | (d, now) :: rest =>
    let step := create_evaluation db d now
    let tail := runCreates step.2 rest
    (tail.1, step.1.EvaluationId :: tail.2)

/-- Sort key of `ORDER BY CreatedAt DESC` (newest first). -/
def createdAtDesc (a b : EvalRow) : Prop := b.CreatedAt ≤ a.CreatedAt

instance : IsTotal EvalRow createdAtDesc :=
  ⟨fun a b => (le_total b.CreatedAt a.CreatedAt).imp id id⟩

instance : IsTrans EvalRow createdAtDesc :=
  ⟨fun _ _ _ hab hbc => le_trans hbc hab⟩

instance : DecidableRel createdAtDesc := fun a b =>
  inferInstanceAs (Decidable (b.CreatedAt ≤ a.CreatedAt))

/-- `db.get_evaluations_by_alert`: `SELECT ... WHERE AlertId = ? ORDER BY CreatedAt
DESC`. -/
def get_evaluations_by_alert (db : EvalDB) (alertId : String) : List EvalRow :=
  List.insertionSort createdAtDesc (db.rows.filter (fun r => r.AlertId = alertId))

/-- `db.get_evaluations_by_comment`: `SELECT ... WHERE AICommentId = ? ORDER BY
CreatedAt DESC`. -/
def get_evaluations_by_comment (db : EvalDB) (commentId : String) : List EvalRow :=
  List.insertionSort createdAtDesc (db.rows.filter (fun r => r.AICommentId = commentId))

/-- The observable SQLite environment of `db.init_database` / `db.get_database_stats`:
`fail` is `some message` when the underlying storage layer raises on use (missing or
corrupt store, e.g. `sqlite3.OperationalError: no such table`), `none` when healthy. -/
structure StorageEnv where
  fail : Option String
  db : EvalDB
  path : String
  dbExists : Bool
deriving Repr, DecidableEq

/-- The four counters of `db.get_database_stats`'s success dictionary. -/
structure DBStats where
  total_evaluations : Nat
  unique_alerts_evaluated : Nat
  unique_comments_evaluated : Nat
  unique_evaluators : Nat
deriving Repr, DecidableEq

/-- The four `COUNT` queries of `get_database_stats` against a healthy store. -/
def computeStats (db : EvalDB) : DBStats :=
  { total_evaluations := db.rows.length
    unique_alerts_evaluated := (dedupFirst (db.rows.map (fun r => r.AlertId))).length
    unique_comments_evaluated := (dedupFirst (db.rows.map (fun r => r.AICommentId))).length
    unique_evaluators := (dedupFirst (db.rows.filterMap (fun r => r.UserId))).length }

/-- Return shape of `db.get_database_stats`: the stats dictionary, or the
`"error": str(e)` dictionary built by its `except` branch. -/
inductive StatsResult where
  | ok (stats : DBStats) (path : String) (dbExists : Bool)
  | failure (error : String) (path : String) (dbExists : Bool)
deriving Repr, DecidableEq

/-- `db.get_database_stats`: the whole body is wrapped in try/except, so an underlying
storage failure is reported as a descriptive result dictionary, never raised. -/
def get_database_stats (env : StorageEnv) : StatsResult :=
  match env.fail with
  | some e => StatsResult.failure e env.path env.dbExists
  | none => StatsResult.ok (computeStats env.db) env.path env.dbExists

/-- `db.init_database`: executes the DDL inside try/except, but the handler prints,
rolls back and then re-`raise`s — the exception propagates to the caller
(`Except.error`); `.ok` is the normal `None` return. -/
def init_database (env : StorageEnv) : Except String StorageEnv :=
  match env.fail with
  | some e => Except.error e
  | none => Except.ok env

/-! ## Startup data download (`src/app/utils/s3_sync.py`) -/

/-- The action one iteration of the loop in `s3_sync.download_data_files` takes for
one required file. -/
inductive FetchAction where
  /-- local copy exists and is younger than 24h: counted as success, no fetch -/
  | skipFresh
  /-- no local copy: `download_from_s3` is attempted -/
  | download
  /-- local copy exists but is 24h old or older: the iteration falls through both the
  inner freshness `if` and the `else` download branch and does nothing -/
  | stale
deriving Repr, DecidableEq

/-- Seconds in the 24-hour freshness threshold (`86400` in `download_data_files`). -/
def seconds24h : Nat := 86400

/-- The per-file control flow of `download_data_files`, given whether a local copy
exists and its age in seconds: `if local_path.exists(): ... if file_age < 86400:
continue` (skip), `else: download_from_s3(...)`. -/
def fileSyncAction (existsLocal : Bool) (ageSeconds : Nat) : FetchAction :=
  if existsLocal then
    if ageSeconds < seconds24h then FetchAction.skipFresh else FetchAction.stale
  else FetchAction.download

/-- Whether the iteration increments `success_count`. -/
def fileSyncCounted (existsLocal : Bool) (ageSeconds : Nat) (downloadOk : Bool) : Bool :=
  match fileSyncAction existsLocal ageSeconds with
  | FetchAction.skipFresh => true
  | FetchAction.download => downloadOk
  | FetchAction.stale => false

/-! ## Theorems -/

theorem runCreates_ids (db : EvalDB) (reqs : List (EvaluationCreateData × Int)) :
    (runCreates db reqs).2 = List.range' db.nextId reqs.length := by
  induction reqs generalizing db with
  | nil => rfl
  | cons r rest ih =>
    obtain ⟨d, now⟩ := r
    show (create_evaluation db d now).1.EvaluationId ::
        (runCreates (create_evaluation db d now).2 rest).2 = _
    rw [ih]
    rfl

/-- **C1.** For every evaluation-creation request whose Grade is outside the closed
range `[1,7]`, the request fails with the `ValueError` raised in
`EvaluationCreate.__post_init__` — i.e. at dataclass construction time, before
`create_evaluation` can attempt any INSERT — and the evaluation store's row count is
unchanged; for every Grade in `[1,7]` the construction-time check passes. -/
theorem C1_grade_validation (db : EvalDB) (d : EvaluationCreateData) (now : Int) :
    (¬ (1 ≤ d.Grade ∧ d.Grade ≤ 7) →
      evaluationCreateInit d = Except.error "Grade must be between 1-7" ∧
        (create_evaluation_request db d now).1 = Except.error "Grade must be between 1-7" ∧
        (create_evaluation_request db d now).2.rows.length = db.rows.length) ∧
    ((1 ≤ d.Grade ∧ d.Grade ≤ 7) → evaluationCreateInit d = Except.ok d) := by
  constructor
  · intro h
    unfold create_evaluation_request evaluationCreateInit
    rw [if_neg h]
    exact ⟨rfl, rfl, rfl⟩
  · intro h
    unfold evaluationCreateInit
    rw [if_pos h]

/-- Closed witness for C1: Grade 9 is rejected at construction with the store left
empty, Grade 5 passes the construction-time check. -/
theorem C1_grade_validation_witness :
    (evaluationCreateInit
        { AICommentId := "c1", AlertId := "a1", Grade := 9, UserId := none, Notes := none } =
      Except.error "Grade must be between 1-7") ∧
    ((create_evaluation_request { rows := [], nextId := 1 }
        { AICommentId := "c1", AlertId := "a1", Grade := 9, UserId := none, Notes := none }
        0).2.rows.length = 0) ∧
    (evaluationCreateInit
        { AICommentId := "c1", AlertId := "a1", Grade := 5, UserId := none, Notes := none } =
      Except.ok { AICommentId := "c1", AlertId := "a1", Grade := 5, UserId := none, Notes := none }) := by
  have h9 := (C1_grade_validation { rows := [], nextId := 1 }
    { AICommentId := "c1", AlertId := "a1", Grade := 9, UserId := none, Notes := none } 0).1
    (by decide)
  have h5 := (C1_grade_validation { rows := [], nextId := 1 }
    { AICommentId := "c1", AlertId := "a1", Grade := 5, UserId := none, Notes := none } 0).2
    (by decide)
  exact ⟨h9.1, h9.2.2, h5⟩

/-- **C6.** Across any sequence of successful create-evaluation calls against one
store lifetime, the assigned `EvaluationId`s are exactly
`nextId, nextId+1, ...` — determined by the store's AUTOINCREMENT counter and the
number of calls alone, never taken from the caller-supplied payloads — hence pairwise
distinct and strictly increasing in creation order. -/
theorem C6_evaluation_ids (db : EvalDB) (reqs : List (EvaluationCreateData × Int)) :
    (runCreates db reqs).2 = List.range' db.nextId reqs.length ∧
      (runCreates db reqs).2.Pairwise (· < ·) ∧ (runCreates db reqs).2.Nodup := by
  refine ⟨runCreates_ids db reqs, ?_, ?_⟩
  · rw [runCreates_ids]
    exact List.pairwise_lt_range' _ _
  · rw [runCreates_ids]
    exact List.nodup_range' _ _

/-- **C7.** The failing input: a required data file whose local copy exists with age
25 hours (90000 s). `download_data_files` takes no fetch action at all — the stale
copy suppresses the fetch (and is not even counted as a success) — while a missing
file is downloaded and a 1-hour-old file is skipped as fresh. This contradicts the
claim (and the code's own comment) that only a copy *newer* than 24h suppresses the
fetch. -/
theorem C7_stale_file_not_fetched :
    fileSyncAction true 90000 = FetchAction.stale ∧
      fileSyncAction true 90000 ≠ FetchAction.download ∧
      fileSyncCounted true 90000 true = false ∧
      fileSyncAction false 90000 = FetchAction.download ∧
      fileSyncAction true 3600 = FetchAction.skipFresh := by decide

/-- A storage environment whose underlying SQLite layer raises on use. -/
def failingEnv : StorageEnv :=
  { fail := some "unable to open database file"
    db := { rows := [], nextId := 1 }
    path := "app/state/eval.sqlite"
    dbExists := false }

/-- **C8 (counterexample).** At a concrete failing store, the initialization call
does *not* return a descriptive failure object to the caller: `init_database`
re-raises (`Except.error`, so `isOk = false`), refuting the claim that both the
statistics call and the initialization call return a failure object rather than
raising. -/
theorem C8_counterexample :
    failingEnv.fail.isSome = true ∧ (init_database failingEnv).isOk = false := by decide

/-- **C8 (amended).** For every underlying storage failure, the aggregate-statistics
call returns a descriptive failure object (the error dictionary with the message,
path and existence flag), while the initialization call propagates the exception to
its caller after rollback. -/
theorem C8_storage_failures (env : StorageEnv) (e : String) (h : env.fail = some e) :
    get_database_stats env = StatsResult.failure e env.path env.dbExists ∧
      init_database env = Except.error e := by
  unfold get_database_stats init_database
  rw [h]
  exact ⟨rfl, rfl⟩

/-- Closed witness for the amended C8 at the concrete failing store. -/
theorem C8_storage_failures_witness :
    get_database_stats failingEnv =
        StatsResult.failure "unable to open database file" "app/state/eval.sqlite" false ∧
      init_database failingEnv = Except.error "unable to open database file" :=
  C8_storage_failures failingEnv "unable to open database file" rfl

/-- **C9.** For every `AlertId` and every `AICommentId`, the evaluations-by-alert and
evaluations-by-comment queries return exactly the stored evaluations matching that
key (membership characterization and multiset equality with the matching rows),
ordered newest first by `CreatedAt`. -/
theorem C9_evaluations_queries (db : EvalDB) (alertId commentId : String) :
    ((∀ r : EvalRow,
        r ∈ get_evaluations_by_alert db alertId ↔ r ∈ db.rows ∧ r.AlertId = alertId) ∧
      (get_evaluations_by_alert db alertId).Perm
        (db.rows.filter (fun r => r.AlertId = alertId)) ∧
      (get_evaluations_by_alert db alertId).Sorted createdAtDesc) ∧
    ((∀ r : EvalRow,
        r ∈ get_evaluations_by_comment db commentId ↔
          r ∈ db.rows ∧ r.AICommentId = commentId) ∧
      (get_evaluations_by_comment db commentId).Perm
        (db.rows.filter (fun r => r.AICommentId = commentId)) ∧
      (get_evaluations_by_comment db commentId).Sorted createdAtDesc) := by
  constructor
  · refine ⟨?_, List.perm_insertionSort _ _, List.sorted_insertionSort _ _⟩
    intro r
    unfold get_evaluations_by_alert
    rw [List.mem_insertionSort, List.mem_filter]
    simp
  · refine ⟨?_, List.perm_insertionSort _ _, List.sorted_insertionSort _ _⟩
    intro r
    unfold get_evaluations_by_comment
    rw [List.mem_insertionSort, List.mem_filter]
    simp

theorem applyOptFilter_subset (get : AlertRow → String → Bool) (filt : Option String)
    (l : List AlertRow) : ∀ a ∈ applyOptFilter get filt l, a ∈ l := by
  intro a ha
  rcases filt with _ | v
  · exact ha
  · by_cases hv : v = "" ∨ v = "All"
    · rw [show applyOptFilter get (some v) l =
          (if v = "" ∨ v = "All" then l else l.filter (fun a => get a v)) from rfl,
        if_pos hv] at ha
      exact ha
    · rw [show applyOptFilter get (some v) l =
          (if v = "" ∨ v = "All" then l else l.filter (fun a => get a v)) from rfl,
        if_neg hv] at ha
      exact (List.mem_filter.mp ha).1

theorem mem_sortedUniqueAlertIds (l : List AlertRow) (aid : String) :
    aid ∈ sortedUniqueAlertIds l ↔ ∃ a ∈ l, a.AlertId = aid := by
  unfold sortedUniqueAlertIds
  rw [List.mem_insertionSort, mem_dedupFirst, List.mem_map]

theorem mem_alertsWithComments (s : MeasurementStore) (a : AlertRow) :
    a ∈ alertsWithComments s ↔
      a ∈ s.alerts ∧ ∃ c ∈ s.comments, c.AlertId = a.AlertId := by
  unfold alertsWithComments
  rw [List.mem_filter]
  simp [List.any_eq_true]

/-- **C3.** For every combination of component, unit and label filter values
(including the no-filter `None`/`'All'` case), every `AlertId` returned by the alert
catalog has at least one associated `AIComment`, and the returned sequence is sorted
ascending by `AlertId`. -/
theorem C3_catalog_comments_and_order (s : MeasurementStore)
    (componentFilter unitFilter labelFilter : Option String) :
    (∀ aid ∈ get_alerts_with_filters s componentFilter unitFilter labelFilter,
        ∃ c ∈ s.comments, c.AlertId = aid) ∧
      (get_alerts_with_filters s componentFilter unitFilter labelFilter).Sorted (· ≤ ·) := by
  constructor
  · intro aid hmem
    unfold get_alerts_with_filters at hmem
    split at hmem
    · exact absurd hmem (List.not_mem_nil _)
    · split at hmem
      · exact absurd hmem (List.not_mem_nil _)
      · split at hmem
        · exact absurd hmem (List.not_mem_nil _)
        · obtain ⟨a, ha, rfl⟩ := (mem_sortedUniqueAlertIds _ _).mp hmem
          unfold filteredAlerts at ha
          have h1 := applyOptFilter_subset _ labelFilter _ a ha
          have h2 := applyOptFilter_subset _ unitFilter _ a h1
          have h3 := applyOptFilter_subset _ componentFilter _ a h2
          exact ((mem_alertsWithComments s a).mp h3).2
  · unfold get_alerts_with_filters
    split
    · exact List.sorted_nil
    · split
      · exact List.sorted_nil
      · split
        · exact List.sorted_nil
        · exact List.sorted_insertionSort _ _

theorem applyOptFilter_noop (get : AlertRow → String → Bool) (filt : Option String)
    (h : filt = none ∨ filt = some "All") (l : List AlertRow) :
    applyOptFilter get filt l = l := by
  rcases h with rfl | rfl
  · rfl
  · show (if ("All" : String) = "" ∨ ("All" : String) = "All" then l
      else l.filter (fun a => get a "All")) = l
    rw [if_pos (Or.inr rfl)]

/-- **C10.** For every measurement-store state, calling the filtered alert catalog
with all three filters absent (`None` or the `'All'` sentinel) returns exactly the
same list of `AlertId`s, in the same order, as the unfiltered
`get_available_alerts`. -/
theorem C10_unfiltered_matches_available (s : MeasurementStore)
    (componentFilter unitFilter labelFilter : Option String)
    (hc : componentFilter = none ∨ componentFilter = some "All")
    (hu : unitFilter = none ∨ unitFilter = some "All")
    (hl : labelFilter = none ∨ labelFilter = some "All") :
    get_alerts_with_filters s componentFilter unitFilter labelFilter =
      get_available_alerts s := by
  have hfa : filteredAlerts s componentFilter unitFilter labelFilter = alertsWithComments s := by
    unfold filteredAlerts
    rw [applyOptFilter_noop _ _ hl, applyOptFilter_noop _ _ hu, applyOptFilter_noop _ _ hc]
  unfold get_alerts_with_filters get_available_alerts
  rw [hfa]
  split_ifs <;> rfl

/-- A small measurement store: alert `A1` has a comment, `A2` and `A3` have none. -/
def catalogStoreW : MeasurementStore :=
  { alerts := [ { AlertId := "A2", UnitId := "U1", Component := "Engine", TimeStart := none,
                  OilAlertId := none, TelAlertId := none, Label := some "both" }
              , { AlertId := "A1", UnitId := "U2", Component := "Motor", TimeStart := none,
                  OilAlertId := none, TelAlertId := none, Label := some "oil_only" }
              , { AlertId := "A3", UnitId := "U1", Component := "Motor", TimeStart := none,
                  OilAlertId := none, TelAlertId := none, Label := none } ]
    oil := []
    telemetry := []
    comments := [ { AICommentId := "C1", AlertId := "A1", CommentText := "t",
                    CommentType := "baseline" } ] }

/-- Closed witness for C10 at a concrete store and a `None`/`'All'` filter mix. -/
theorem C10_unfiltered_matches_available_witness :
    get_alerts_with_filters catalogStoreW none (some "All") none =
        get_available_alerts catalogStoreW ∧
      get_available_alerts catalogStoreW = ["A1"] := by
  refine ⟨C10_unfiltered_matches_available catalogStoreW none (some "All") none
    (Or.inl rfl) (Or.inr rfl) (Or.inl rfl), ?_⟩
  decide

theorem telWindow_mem_some (tel : List TelRow) (tid : String) (t0 : Int) (r : TelRow) :
    r ∈ telWindow tel tid (some t0) ↔
      r ∈ tel ∧ r.TelAlertId = tid ∧
        t0 - hours48 ≤ r.Timestamp ∧ r.Timestamp ≤ t0 + hours48 := by
  show r ∈ (if tel.filter (fun r => r.TelAlertId = tid) = [] then
      tel.filter (fun r => r.TelAlertId = tid)
    else
      (tel.filter (fun r => r.TelAlertId = tid)).filter
        (fun r => t0 - hours48 ≤ r.Timestamp ∧ r.Timestamp ≤ t0 + hours48)) ↔ _
  by_cases hemp : tel.filter (fun r => r.TelAlertId = tid) = []
  · rw [if_pos hemp, hemp]
    simp only [List.not_mem_nil, false_iff]
    rintro ⟨hr1, hr2, _⟩
    have hmem : r ∈ tel.filter (fun r => r.TelAlertId = tid) :=
      List.mem_filter.mpr ⟨hr1, by simpa using hr2⟩
    rw [hemp] at hmem
    exact List.not_mem_nil r hmem
  · rw [if_neg hemp, List.mem_filter, List.mem_filter]
    simp [and_assoc]

theorem telWindow_mem_none (tel : List TelRow) (tid : String) (r : TelRow) :
    r ∈ telWindow tel tid none ↔ r ∈ tel ∧ r.TelAlertId = tid := by
  show r ∈ tel.filter (fun r => r.TelAlertId = tid) ↔ _
  rw [List.mem_filter]
  simp

/-- **C5.** For every alert with a truthy telemetry link: when `TimeStart` is
present, the telemetry window contains exactly the matching-`TelAlertId` rows whose
`Timestamp` lies in the closed interval `[TimeStart − 48h, TimeStart + 48h]` (both
endpoints included); when `TimeStart` is absent, the full matching-`TelAlertId`
series is returned with no time filter. -/
theorem C5_telemetry_window (s : MeasurementStore) (alertId : String) (a : AlertRow)
    (tid : String) (ha : get_alert_details s alertId = some a)
    (htid : a.TelAlertId = some tid) (hne : tid ≠ "") :
    (∀ t0 : Int, a.TimeStart = some t0 →
      ∀ r : TelRow,
        r ∈ get_telemetry_data_for_alert s alertId ↔
          r ∈ s.telemetry ∧ r.TelAlertId = tid ∧
            t0 - hours48 ≤ r.Timestamp ∧ r.Timestamp ≤ t0 + hours48) ∧
    (a.TimeStart = none →
      ∀ r : TelRow,
        r ∈ get_telemetry_data_for_alert s alertId ↔
          r ∈ s.telemetry ∧ r.TelAlertId = tid) := by
  have hres : get_telemetry_data_for_alert s alertId = telWindow s.telemetry tid a.TimeStart := by
    simp only [get_telemetry_data_for_alert, ha, htid]
    rw [if_neg hne]
  constructor
  · intro t0 ht0 r
    rw [hres, ht0]
    exact telWindow_mem_some s.telemetry tid t0 r
  · intro ht0 r
    rw [hres, ht0]
    exact telWindow_mem_none s.telemetry tid r

/-- The spec's C5 scenario store: alert `A1` starts at `t0 = 0` and links telemetry
series `T1`, which has rows at `t0 − 60h` and `t0 + 10h`. -/
def telStoreW : MeasurementStore :=
  { alerts := [ { AlertId := "A1", UnitId := "U1", Component := "Motor", TimeStart := some 0,
                  OilAlertId := none, TelAlertId := some "T1", Label := some "telemetry_only" } ]
    oil := []
    telemetry := [ { TelAlertId := "T1", Timestamp := -60, VariableName := "Temp", Value := 10,
                     IsLimitReached := false, UpperLimitValue := none, LowerLimitValue := none }
                 , { TelAlertId := "T1", Timestamp := 10, VariableName := "Temp", Value := 20,
                     IsLimitReached := true, UpperLimitValue := some 15, LowerLimitValue := none } ]
    comments := [] }

/-- Closed witness for C5, realizing the spec scenario: only the `t0 + 10h` row is in
the window, the `t0 − 60h` row is not. -/
theorem C5_telemetry_window_witness :
    ({ TelAlertId := "T1", Timestamp := 10, VariableName := "Temp", Value := 20,
       IsLimitReached := true, UpperLimitValue := some 15, LowerLimitValue := none } : TelRow) ∈
        get_telemetry_data_for_alert telStoreW "A1" ∧
      ({ TelAlertId := "T1", Timestamp := -60, VariableName := "Temp", Value := 10,
         IsLimitReached := false, UpperLimitValue := none, LowerLimitValue := none } : TelRow) ∉
        get_telemetry_data_for_alert telStoreW "A1" := by
  have h := (C5_telemetry_window telStoreW "A1"
    { AlertId := "A1", UnitId := "U1", Component := "Motor", TimeStart := some 0,
      OilAlertId := none, TelAlertId := some "T1", Label := some "telemetry_only" }
    "T1" (by decide) rfl (by decide)).1 0 rfl
  constructor
  · exact (h _).mpr ⟨by decide, rfl, by decide, by decide⟩
  · intro hc
    obtain ⟨-, -, hb, -⟩ := (h _).mp hc
    simp only [hours48] at hb
    omega

/-- The claim's formula for `MaxExcess` over one variable's group: `max(0,
max(Value − UpperLimitValue))` over the rows with a non-null `UpperLimitValue`,
defaulting to `0` when no upper limit is present (stated from the spec's words, to be
compared with the code's `breachStat`). -/
def specMaxExcess (g : List TelRow) : Int :=
  match listMax? (g.filterMap (fun r => r.UpperLimitValue.map (fun u => r.Value - u))) with
  | none => 0
  | some m => max 0 m

theorem breachStat_stats (s : MeasurementStore) (alertId v : String) :
    (breachStat s alertId v).VariableName = v ∧
      (breachStat s alertId v).AnyLimitReached =
        (telGroup s alertId v).any (fun r => r.IsLimitReached) ∧
      (breachStat s alertId v).MaxExcess = specMaxExcess (telGroup s alertId v) := by
  refine ⟨rfl, rfl, ?_⟩
  show (match listMax? ((telGroup s alertId v).filterMap
        (fun r => r.UpperLimitValue.map (fun u => r.Value - u))) with
    | none => (0 : Int)
    | some m => if 0 < m then m else 0) = specMaxExcess (telGroup s alertId v)
  unfold specMaxExcess
  cases listMax? ((telGroup s alertId v).filterMap
      (fun r => r.UpperLimitValue.map (fun u => r.Value - u))) with
  | none => rfl
  | some m =>
    show (if 0 < m then m else 0) = max 0 m
    by_cases hm : 0 < m
    · rw [if_pos hm]
      exact (max_eq_right hm.le).symm
    · rw [if_neg hm]
      exact (max_eq_left (not_lt.mp hm)).symm

/-- **C4.** For every alert, the telemetry breach ranking groups the telemetry window
by `VariableName`; each output row has `MaxExcess` equal to the spec's
`max(0, max(Value − UpperLimitValue))` formula over its group (0 when no upper limit
is present) and `AnyLimitReached` equal to the OR of `IsLimitReached` over its group;
the output contains exactly the window's variables whose `AnyLimitReached` is true;
and it is ordered by `AnyLimitReached` descending then `MaxExcess` descending. -/
theorem C4_telemetry_breaches (s : MeasurementStore) (alertId : String) :
    (∀ row ∈ get_telemetry_breaches_table s alertId,
        row.AnyLimitReached = true ∧
          row.AnyLimitReached =
            (telGroup s alertId row.VariableName).any (fun r => r.IsLimitReached) ∧
          row.MaxExcess = specMaxExcess (telGroup s alertId row.VariableName)) ∧
    (∀ v : String,
        (∃ row ∈ get_telemetry_breaches_table s alertId, row.VariableName = v) ↔
          v ∈ (get_telemetry_data_for_alert s alertId).map (fun r => r.VariableName) ∧
            (telGroup s alertId v).any (fun r => r.IsLimitReached) = true) ∧
    (get_telemetry_breaches_table s alertId).Sorted telFlagLE := by
  have hdef : get_telemetry_breaches_table s alertId =
      if get_telemetry_data_for_alert s alertId = [] then []
      else
        (List.insertionSort telFlagLE
            ((dedupFirst ((get_telemetry_data_for_alert s alertId).map
                (fun r => r.VariableName))).map (breachStat s alertId))).filter
          (fun r => r.AnyLimitReached) := rfl
  by_cases hemp : get_telemetry_data_for_alert s alertId = []
  · rw [hdef, if_pos hemp]
    refine ⟨by simp, ?_, List.sorted_nil⟩
    intro v
    constructor
    · rintro ⟨row, hrow, -⟩
      exact absurd hrow (List.not_mem_nil _)
    · rintro ⟨hv, -⟩
      rw [hemp] at hv
      simp at hv
  · rw [hdef, if_neg hemp]
    refine ⟨?_, ?_, ?_⟩
    · intro row hrow
      have h1 := List.mem_filter.mp hrow
      have h2 := (List.mem_insertionSort _).mp h1.1
      obtain ⟨w, hw, hweq⟩ := List.mem_map.mp h2
      subst hweq
      have hb := breachStat_stats s alertId w
      refine ⟨h1.2, ?_, ?_⟩
      · rw [hb.1]
        exact hb.2.1
      · rw [hb.1]
        exact hb.2.2
    · intro v
      constructor
      · rintro ⟨row, hrow, rfl⟩
        have h1 := List.mem_filter.mp hrow
        have h2 := (List.mem_insertionSort _).mp h1.1
        obtain ⟨w, hw, hweq⟩ := List.mem_map.mp h2
        subst hweq
        have hb := breachStat_stats s alertId w
        rw [hb.1]
        refine ⟨(mem_dedupFirst w _).mp hw, ?_⟩
        rw [← hb.2.1]
        exact h1.2
      · rintro ⟨hv, hany⟩
        refine ⟨breachStat s alertId v, ?_, (breachStat_stats s alertId v).1⟩
        apply List.mem_filter.mpr
        refine ⟨(List.mem_insertionSort _).mpr
          (List.mem_map.mpr ⟨v, (mem_dedupFirst v _).mpr hv, rfl⟩), ?_⟩
        rw [(breachStat_stats s alertId v).2.1]
        exact hany
    · exact List.Pairwise.filter _ (List.sorted_insertionSort telFlagLE _)

theorem aggOilRow_eq {s : MeasurementStore} {alertId e : String} {row : OilSummaryRowFlagged}
    (h : aggOilRow s alertId e = some row) :
    ∃ lastRow : OilRow, (oilGroup s alertId e).getLast? = some lastRow ∧
      row = { ElementName := e
              Value := lastRow.Value
              LimitValue := lastNonNull ((oilGroup s alertId e).map (fun r => r.LimitValue))
              BreachLevel := lastNonNull ((oilGroup s alertId e).map (fun r => r.BreachLevel))
              IsLimitReached := lastRow.IsLimitReached } := by
  unfold aggOilRow at h
  cases hg : (oilGroup s alertId e).getLast? with
  | none => rw [hg] at h; cases h
  | some lastRow =>
    rw [hg] at h
    cases h
    exact ⟨lastRow, rfl, rfl⟩

theorem filterMap_aggOil_names (s : MeasurementStore) (alertId : String)
    (keys : List String) :
    (keys.filterMap (aggOilRow s alertId)).map (fun r => r.ElementName) =
      keys.filter (fun e => (aggOilRow s alertId e).isSome) := by
  induction keys with
  | nil => rfl
  | cons k ks ih =>
    cases hk : aggOilRow s alertId k with
    | none =>
      rw [List.filterMap_cons, List.filter_cons, hk]
      simp only [Option.isSome_none, Bool.false_eq_true, if_false]
      exact ih
    | some row =>
      rw [List.filterMap_cons, List.filter_cons, hk]
      simp only [Option.isSome_some, if_true]
      rw [List.map_cons, ih]
      obtain ⟨lastRow, -, hrow⟩ := aggOilRow_eq hk
      rw [hrow]

theorem oilGroup_sorted (s : MeasurementStore) (alertId e : String) :
    (oilGroup s alertId e).Sorted sampleDateLE :=
  List.Pairwise.filter _ (List.sorted_insertionSort sampleDateLE _)

theorem nodup_oilSummary_names (s : MeasurementStore) (alertId : String) :
    ((oilSummaryFlagged s alertId).map (fun r => r.ElementName)).Nodup := by
  have hperm : (oilSummaryFlagged s alertId).Perm
      ((oilKeys s alertId).filterMap (aggOilRow s alertId)) :=
    List.perm_insertionSort _ _
  apply ((hperm.map (fun r => r.ElementName)).symm).nodup
  rw [filterMap_aggOil_names]
  apply List.Nodup.filter
  exact ((List.perm_insertionSort _ _).symm).nodup
    (nodup_dedupFirst ((oilSorted s alertId).map (fun r => r.ElementName)))

/-- **C2 (amended).** For every alert, the oil snapshot has at most one row per
distinct `ElementName`; for each row there is a matching-element source row of
maximal `SampleDate` supplying its `Value` (and breach flag); the nullable columns
`LimitValue` and `BreachLevel` are the *last non-null* values of their columns over
the element's `SampleDate`-ascending rows (pandas `GroupBy.last` semantics), so when
non-null they come from some row of the group — but not necessarily from the
max-`SampleDate` row; and the result is ordered with `IsLimitReached` rows first,
secondarily by `ElementName` ascending. -/
theorem C2_oil_snapshot_amended (s : MeasurementStore) (alertId : String) :
    ((get_oil_summary_table s alertId).map (fun r => r.ElementName)).Nodup ∧
    (∀ row ∈ oilSummaryFlagged s alertId,
        (∃ r ∈ oilGroup s alertId row.ElementName,
            (∀ q ∈ oilGroup s alertId row.ElementName, q.SampleDate ≤ r.SampleDate) ∧
              r.Value = row.Value ∧ r.IsLimitReached = row.IsLimitReached) ∧
          row.LimitValue =
            lastNonNull ((oilGroup s alertId row.ElementName).map (fun r => r.LimitValue)) ∧
          (∀ v : Int, row.LimitValue = some v →
            ∃ r ∈ oilGroup s alertId row.ElementName, r.LimitValue = some v) ∧
          (∀ b : String, row.BreachLevel = some b →
            ∃ r ∈ oilGroup s alertId row.ElementName, r.BreachLevel = some b)) ∧
    (oilSummaryFlagged s alertId).Sorted oilFlagLE := by
  refine ⟨?_, ?_, List.sorted_insertionSort _ _⟩
  · have h := nodup_oilSummary_names s alertId
    unfold get_oil_summary_table
    rw [List.map_map]
    exact h
  · intro row hrow
    have h1 := (List.mem_insertionSort _).mp hrow
    obtain ⟨e, he, hagg⟩ := List.mem_filterMap.mp h1
    obtain ⟨lastRow, hg, hroweq⟩ := aggOilRow_eq hagg
    subst hroweq
    refine ⟨⟨lastRow, mem_of_getLast?_eq hg, ?_, rfl, rfl⟩, rfl, ?_, ?_⟩
    · exact sorted_getLast?_max (r := sampleDateLE) (fun a => le_refl a.SampleDate) _
        (oilGroup_sorted s alertId e) lastRow hg
    · intro v hv
      obtain ⟨r, hr, hrv⟩ := List.mem_map.mp (lastNonNull_mem hv)
      exact ⟨r, hr, hrv⟩
    · intro b hb
      obtain ⟨r, hr, hrb⟩ := List.mem_map.mp (lastNonNull_mem hb)
      exact ⟨r, hr, hrb⟩

/-- Store exhibiting the C2 counterexample: element `Iron` has an older sample with
non-null `LimitValue`/`BreachLevel` and a newer sample with null ones. -/
def oilStoreCX : MeasurementStore :=
  { alerts := [ { AlertId := "A1", UnitId := "U1", Component := "Motor", TimeStart := some 0,
                  OilAlertId := some "O1", TelAlertId := none, Label := some "oil_only" } ]
    oil := [ { OilAlertId := "O1", SampleDate := 1, ElementName := "Iron", Value := 10,
               IsLimitReached := false, LimitValue := some 5, BreachLevel := some "alert" }
           , { OilAlertId := "O1", SampleDate := 2, ElementName := "Iron", Value := 50,
               IsLimitReached := true, LimitValue := none, BreachLevel := none } ]
    telemetry := []
    comments := [] }

/-- **C2 (counterexample).** At `oilStoreCX`, the claim as stated — every snapshot
row *is* the max-`SampleDate` row of its element (all displayed columns taken from
that one row) — is false: the single `Iron` row takes `Value = 50` from the newest
sample but `LimitValue = some 5` and `BreachLevel = "alert"` from the older one,
because pandas `GroupBy.last` takes the last non-null entry per column. -/
theorem C2_oil_snapshot_counterexample :
    ¬ (((get_oil_summary_table oilStoreCX "A1").map (fun r => r.ElementName)).Nodup ∧
       (∀ row ∈ oilSummaryFlagged oilStoreCX "A1",
          ∃ r ∈ oilGroup oilStoreCX "A1" row.ElementName,
            (∀ q ∈ oilGroup oilStoreCX "A1" row.ElementName, q.SampleDate ≤ r.SampleDate) ∧
              r.Value = row.Value ∧ r.LimitValue = row.LimitValue ∧
              r.BreachLevel = row.BreachLevel) ∧
       (oilSummaryFlagged oilStoreCX "A1").Sorted oilFlagLE) := by decide
